import Mathlib

/-!
Verification development for the llamanator HTTP gateway (src/main.go).

The gateway's core pipeline is embedded shallowly:
  - JSON values decoded by encoding/json are modelled by `JValue`; Go maps
    (map[string]interface{}) are modelled as association lists with
    first-occurrence lookup — all maps built here have unique keys, so this
    matches Go map semantics.
  - Compiled html/template templates whose only action is `{{.Query}}` are
    modelled as lists of `TmplPart`; execution in the text context applies
    the html/template escaper to the interpolated value.
  - The per-request handler is modelled as a pure function from the decoded
    request body to an outcome (HTTP 400, or the backend payload that would
    be POSTed), since everything before the outbound call is deterministic.
  - Filesystem and network effects (reading template files, the backend
    call) are modelled by passing their results in as data.
-/

namespace Llamanator

/-- JSON values as decoded by encoding/json into interface{} values.
Numbers are opaque to the gateway logic, so their representation (Int here,
float64 in Go) is irrelevant to every property proved below. -/
inductive JValue : Type
  | str (s : String)
  | num (x : Int)
  | bool (b : Bool)
  | null
  | arr (xs : List JValue)
  | obj (fields : List (String × JValue))

/-- Go map read m[k]: first entry with key k (keys are unique in every map
built in this development, matching Go map semantics). -/
def jlookup {α : Type} (k : String) : List (String × α) → Option α
  | [] => none
  | p :: rest => if p.1 = k then some p.2 else jlookup k rest

/-- Go map assignment m[k] = v: replace the entry for k if present,
otherwise append a new entry. -/
def mapInsert {α : Type} (k : String) (v : α) : List (String × α) → List (String × α)
  | [] => [(k, v)]
  | p :: rest => if p.1 = k then (k, v) :: rest else p :: mapInsert k v rest

/-- One segment of a parsed template: literal text, or the sole action
`{{.Query}}` referencing TemplateData.Query (src/main.go lines 51-53). -/
inductive TmplPart : Type
  | lit (s : String)
  | queryRef
deriving DecidableEq

/-- Escaping applied by html/template to an interpolated value in the text
context (htmlReplacementTable in html/template/html.go): NUL becomes the
Unicode replacement character, and the characters double-quote, ampersand,
apostrophe, plus, less-than, equals, greater-than and backtick become
numeric or named character references; every other character passes
through. -/
def htmlEscapeChar (c : Char) : List Char :=
  if c.toNat = 0 then [Char.ofNat 65533]
  else if c.toNat = 34 then "&#34;".data
  else if c.toNat = 38 then "&amp;".data
  else if c.toNat = 39 then "&#39;".data
  else if c.toNat = 43 then "&#43;".data
  else if c.toNat = 60 then "&lt;".data
  else if c.toNat = 61 then "&#61;".data
  else if c.toNat = 62 then "&gt;".data
  else if c.toNat = 96 then "&#96;".data
  else [c]

/-- Escape a character sequence with the html/template text-context
escaper, character by character. -/
def htmlEscapeList : List Char → List Char
  | [] => []
  | c :: cs => htmlEscapeChar c ++ htmlEscapeList cs

/-- html/template text-context escaping of a whole string. -/
def htmlEscapeString (s : String) : String :=
  String.mk (htmlEscapeList s.data)

/-- processTemplate (src/main.go lines 142-148): execute the compiled
template against TemplateData{Query: query}. Literal parts are emitted
verbatim; the `{{.Query}}` action emits the query escaped by the
html/template text-context escaper (the package imported on line 7 is
html/template, not text/template). -/
def processTemplate (query : String) : List TmplPart → String
  | [] => ""
  | p :: ps =>
      (match p with
        | TmplPart.lit s => s
        | TmplPart.queryRef => htmlEscapeString query) ++ processTemplate query ps

/-- Parsed form of the synthetic default template
`{{.Query}} Default template response.` (src/main.go line 113). -/
def defaultTemplateParts : List TmplPart :=
  [TmplPart.queryRef, TmplPart.lit " Default template response."]

/-- Test from src/main.go line 93, filepath.Ext(templateName) == ".json":
Ext takes the suffix starting at the final dot, so (since "json" itself
has no dot) the comparison holds exactly when the filename ends with
".json". Modelled over the character list. -/
def hasJsonExt (name : String) : Bool :=
  ".json".data.isSuffixOf name.data

/-- One iteration of the template-directory scan (src/main.go lines
91-109): a directory entry is a filename paired with the parse result of
its contents (`none` models a read or parse failure, which the code logs
and skips). Only files with extension ".json" are considered, and a
successful parse is stored in the registry under the filename with the
extension stripped. -/
def templateStep (acc : List (String × List TmplPart))
    (file : String × Option (List TmplPart)) : List (String × List TmplPart) :=
  if hasJsonExt file.1 then
    match file.2 with
    | some tmpl => mapInsert (file.1.dropRight 5) tmpl acc
    | none => acc
  else acc

/-- loadAndCacheTemplates (src/main.go lines 76-127), with the directory
listing and per-file read/parse results passed in as data: scan the
entries in order, then, if no template was registered, install the
synthetic "default" template. The on-disk persistence of the default
template (lines 120-123) is a side effect outside the registry and is not
modelled. -/
def loadAndCacheTemplates (files : List (String × Option (List TmplPart))) :
    List (String × List TmplPart) :=
  let templates := files.foldl templateStep []
  if templates.isEmpty then [("default", defaultTemplateParts)] else templates

/-- Outcome of the authenticate wrapper (src/main.go lines 129-140) on one
request. -/
inductive AuthOutcome : Type
  | invoked
  | unauthorized
  | panicked
deriving DecidableEq

/-- authenticate (src/main.go lines 129-140): compare the Authorization
header against "Bearer " + config.AuthToken. On mismatch the code first
logs `token[len(token)-1:]`; when the header is empty (Header.Get returns
"" for a missing header) that slice has bounds [-1:] and panics, so
http.Error is never reached and no 401 is written — modelled by the
`panicked` outcome. On a non-empty mismatch it writes 401 without calling
the wrapped handler; on an exact match it invokes the wrapped handler. -/
def authenticate (authToken : String) (header : String) : AuthOutcome :=
  if header ≠ "Bearer " ++ authToken then
    if header.isEmpty then AuthOutcome.panicked else AuthOutcome.unauthorized
  else AuthOutcome.invoked

/-- Model selection (src/main.go lines 180-183): start from
config.DefaultModel; if the decoded request carries a "model" field that
is a string (the type assertion succeeds) and is non-empty, use it. -/
def selectModel (defaultModel : String) (haRequest : List (String × JValue)) : String :=
  match jlookup "model" haRequest with
  | some (JValue.str modelFromRequest) =>
      if modelFromRequest ≠ "" then modelFromRequest else defaultModel
  | _ => defaultModel

/-- Backend payload construction (src/main.go lines 186-188): start from
config.OllamaParams and set "prompt" and "model". -/
def buildOllamaRequest (ollamaParams : List (String × JValue))
    (fullPrompt model : String) : List (String × JValue) :=
  mapInsert "model" (JValue.str model)
    (mapInsert "prompt" (JValue.str fullPrompt) ollamaParams)

/-- Value of config.OllamaParams after one payload construction: the
assignment `ollamaRequest := config.OllamaParams` (line 186) copies a Go
map reference, not the map, so the key assignments on lines 187-188 write
through the alias and the configuration's map afterwards IS the built
payload. -/
def ollamaParamsAfterBuild (ollamaParams : List (String × JValue))
    (fullPrompt model : String) : List (String × JValue) :=
  buildOllamaRequest ollamaParams fullPrompt model

/-- Outcome of the request handling up to the backend call: an HTTP 400
("Invalid request" or "Query parameter missing or not a string"), or the
payload POSTed to the backend. -/
inductive HandlerOutcome : Type
  | badRequest
  | backendCall (payload : List (String × JValue))

/-- templateHandler body after authentication (src/main.go lines 151-194),
up to the outbound call: `body` is the JSON decoding of the request body
(`none` models a decode failure, line 153); extract "query" via a string
type assertion (line 159, 400 on failure); render the bound template if
the registry has one (`tmpl`), else use the query directly as the prompt
(lines 166-177; template execution cannot fail for templates built from
`TmplPart`s, whose only reference is the provided Query field); then build
the backend payload (lines 180-188). -/
def templateHandler (tmpl : Option (List TmplPart))
    (ollamaParams : List (String × JValue)) (defaultModel : String)
    (body : Option (List (String × JValue))) : HandlerOutcome :=
  match body with
  | none => HandlerOutcome.badRequest
  | some haRequest =>
      match jlookup "query" haRequest with
      | some (JValue.str query) =>
          let fullPrompt : String :=
            match tmpl with
            | some parts => processTemplate query parts
            | none => query
          HandlerOutcome.backendCall
            (buildOllamaRequest ollamaParams fullPrompt (selectModel defaultModel haRequest))
      | _ => HandlerOutcome.badRequest

/-- The "response" string obtained by unmarshalling the backend body into
the typed OllamaResponse struct (src/main.go lines 225-229): "" when the
field is absent, the string itself when present as a JSON string, and a
decode error (request aborted) when present with any other type. -/
def typedResponse (m : List (String × JValue)) : Option String :=
  match jlookup "response" m with
  | none => some ""
  | some (JValue.str s) => some s
  | some _ => none

/-- strings.ReplaceAll(s, "\n", " ") (src/main.go line 253): every literal
newline character (code 10) becomes a single space (code 32). -/
def stripNewlines (s : String) : String :=
  String.mk (s.data.map (fun c => if c.toNat = 10 then Char.ofNat 32 else c))

/-- The allowlist copy loop (src/main.go lines 245-249): for each
configured field name in order, if the open backend mapping has it, copy
it into the accumulating filtered response. -/
def copyFields (m : List (String × JValue)) :
    List String → List (String × JValue) → List (String × JValue)
  | [], acc => acc
  | f :: fs, acc =>
      copyFields m fs
        (match jlookup f m with
          | some v => mapInsert f v acc
          | none => acc)

/-- Filtered response after the allowlist copy (src/main.go lines
232-249): seeded with the typed "response" string, then the allowlisted
fields present in the open backend mapping are copied in. -/
def projectFields (response : String) (responseFields : List String)
    (m : List (String × JValue)) : List (String × JValue) :=
  copyFields m responseFields [("response", JValue.str response)]

/-- Full response projection (src/main.go lines 232-254): the allowlist
copy, then, when config.StripNewline is set, the "response" key is
overwritten with the newline-stripped typed response string. -/
def project (stripNewline : Bool) (response : String)
    (responseFields : List String) (m : List (String × JValue)) :
    List (String × JValue) :=
  if stripNewline then
    mapInsert "response" (JValue.str (stripNewlines response))
      (projectFields response responseFields m)
  else projectFields response responseFields m

/-- Reading back the key just written by a Go map assignment. -/
theorem jlookup_mapInsert_self {α : Type} (k : String) (v : α)
    (m : List (String × α)) : jlookup k (mapInsert k v m) = some v := by
  induction m with
  | nil => simp [mapInsert, jlookup]
  | cons p rest ih =>
      by_cases h : p.1 = k
      · simp [mapInsert, h, jlookup]
      · simp [mapInsert, h, jlookup, ih]

/-- A Go map assignment leaves every other key unchanged. -/
theorem jlookup_mapInsert_ne {α : Type} {k j : String} (h : k ≠ j) (v : α)
    (m : List (String × α)) : jlookup k (mapInsert j v m) = jlookup k m := by
  induction m with
  | nil => simp [mapInsert, jlookup, Ne.symm h]
  | cons p rest ih =>
      by_cases hp : p.1 = j
      · simp [mapInsert, hp, jlookup, Ne.symm h]
      · by_cases hk : p.1 = k
        · simp [mapInsert, hp, jlookup, hk, h]
        · simp [mapInsert, hp, jlookup, hk, ih]

/-- What the allowlist copy loop produces at each key: an allowlisted key
present in the backend mapping reads back its backend value; every other
key reads back its value in the seed. -/
theorem jlookup_copyFields (m : List (String × JValue)) (fs : List String)
    (acc : List (String × JValue)) (k : String) :
    jlookup k (copyFields m fs acc) =
      if k ∈ fs ∧ (jlookup k m).isSome then jlookup k m else jlookup k acc := by
  induction fs generalizing acc with
  | nil => simp [copyFields]
  | cons f fs ih =>
      by_cases hk : k = f
      · subst hk
        cases hv : jlookup k m with
        | none =>
            simp only [copyFields, hv]
            rw [ih]
            simp [hv]
        | some v =>
            simp only [copyFields, hv]
            rw [ih]
            by_cases hfs : k ∈ fs
            · simp [hfs, hv]
            · simp [hfs, hv, jlookup_mapInsert_self]
      · cases hv : jlookup f m with
        | none =>
            simp only [copyFields, hv]
            rw [ih]
            simp [List.mem_cons, hk]
        | some v =>
            simp only [copyFields, hv]
            rw [ih, jlookup_mapInsert_ne hk]
            simp [List.mem_cons, hk]

/-- The html/template escaper is the identity on a character sequence none
of whose characters is in the replacement table. -/
theorem htmlEscapeList_id (l : List Char) (h : ∀ c ∈ l, htmlEscapeChar c = [c]) :
    htmlEscapeList l = l := by
  induction l with
  | nil => rfl
  | cons c cs ih =>
      rw [htmlEscapeList, h c (List.mem_cons_self c cs),
        ih (fun d hd => h d (List.mem_cons_of_mem c hd))]
      rfl

/-- A directory scan in which every entry is skipped (wrong extension, or
read/parse failure) leaves the registry accumulator unchanged. -/
theorem foldl_templateStep_skip (files : List (String × Option (List TmplPart)))
    (acc : List (String × List TmplPart))
    (h : ∀ f ∈ files, f.2 = none ∨ hasJsonExt f.1 = false) :
    files.foldl templateStep acc = acc := by
  induction files generalizing acc with
  | nil => rfl
  | cons f fs ih =>
      have hstep : templateStep acc f = acc := by
        rcases h f (List.mem_cons_self f fs) with hf | hf
        · simp [templateStep, hf]
        · simp [templateStep, hf]
      rw [List.foldl_cons, hstep]
      exact ih acc (fun g hg => h g (List.mem_cons_of_mem f hg))

/-- C1: counterexample. With an empty static parameter mapping at startup,
handling one request (prompt "p", model "m") leaves the configuration's
OllamaParams different from its startup value: the payload construction
wrote "prompt" and "model" through the aliased map, so the claim that the
mapping equals its startup value after building the payload is false. -/
theorem ollamaParamsMutationCounterexample :
    ollamaParamsAfterBuild [] "p" "m" ≠ ([] : List (String × JValue)) := by
  intro h
  exact absurd (congrArg List.length h) (by decide)

/-- C1 (amended): building the backend payload mutates the configuration's
static parameter mapping in place — afterwards it holds the request's
"prompt" and "model" values, while every key other than "prompt" and
"model" keeps its startup value. -/
theorem ollamaParamsAfterBuildSpec (ollamaParams : List (String × JValue))
    (fullPrompt model : String) :
    jlookup "prompt" (ollamaParamsAfterBuild ollamaParams fullPrompt model)
        = some (JValue.str fullPrompt)
  ∧ jlookup "model" (ollamaParamsAfterBuild ollamaParams fullPrompt model)
        = some (JValue.str model)
  ∧ ∀ k, k ≠ "prompt" → k ≠ "model" →
      jlookup k (ollamaParamsAfterBuild ollamaParams fullPrompt model)
        = jlookup k ollamaParams := by
  unfold ollamaParamsAfterBuild buildOllamaRequest
  refine ⟨?_, jlookup_mapInsert_self _ _ _, ?_⟩
  · rw [jlookup_mapInsert_ne (by decide), jlookup_mapInsert_self]
  · intro k h1 h2
    rw [jlookup_mapInsert_ne h2, jlookup_mapInsert_ne h1]

/-- C1: witness for the amended theorem at a concrete configuration with a
static "temperature" parameter. -/
theorem ollamaParamsAfterBuildSpecWitness :
    jlookup "prompt" (ollamaParamsAfterBuild [("temperature", JValue.num 1)] "p" "m")
        = some (JValue.str "p")
  ∧ jlookup "model" (ollamaParamsAfterBuild [("temperature", JValue.num 1)] "p" "m")
        = some (JValue.str "m")
  ∧ jlookup "temperature" (ollamaParamsAfterBuild [("temperature", JValue.num 1)] "p" "m")
        = jlookup "temperature" [("temperature", JValue.num 1)] := by
  have h := ollamaParamsAfterBuildSpec [("temperature", JValue.num 1)] "p" "m"
  exact ⟨h.1, h.2.1, h.2.2 "temperature" (by decide) (by decide)⟩

/-- C2: counterexample. Rendering the template `{{.Query}} suffix` with the
query "<" does not produce "<" ++ " suffix": the html/template package
escapes the interpolated query, yielding "&lt; suffix". -/
theorem processTemplateEscapesCounterexample :
    processTemplate "<" [TmplPart.queryRef, TmplPart.lit " suffix"]
      ≠ "<" ++ " suffix" := by
  decide

/-- C2 (amended): rendering the template `{{.Query}} suffix` with query Q
produces exactly htmlEscape(Q) ++ " suffix", where htmlEscape is the
html/template text-context escaping; in particular it produces exactly
Q ++ " suffix" whenever no character of Q is in the escaper's replacement
table. Render is a pure function of the template and the query. -/
theorem processTemplateRenders (q : String) :
    processTemplate q [TmplPart.queryRef, TmplPart.lit " suffix"]
        = htmlEscapeString q ++ " suffix"
  ∧ ((∀ c ∈ q.data, htmlEscapeChar c = [c]) →
      processTemplate q [TmplPart.queryRef, TmplPart.lit " suffix"]
        = q ++ " suffix") := by
  have h1 : processTemplate q [TmplPart.queryRef, TmplPart.lit " suffix"]
      = htmlEscapeString q ++ " suffix" := by
    show htmlEscapeString q ++ (" suffix" ++ "") = htmlEscapeString q ++ " suffix"
    rfl
  refine ⟨h1, fun h => ?_⟩
  rw [h1]
  have h2 : htmlEscapeString q = q := by
    unfold htmlEscapeString
    rw [htmlEscapeList_id q.data h]
  rw [h2]

/-- C2: witness for the amended theorem at the escape-free query "abc". -/
theorem processTemplateRendersWitness :
    processTemplate "abc" [TmplPart.queryRef, TmplPart.lit " suffix"]
      = "abc" ++ " suffix" :=
  (processTemplateRenders "abc").2 (by decide)

/-- C3: the claim is right and the code is wrong. On an empty (or missing,
Header.Get yields "") Authorization header the mismatch branch is taken,
but the log line slices token with bounds [len(token)-1:] = [-1:], which
panics before http.Error can write the 401; the authenticator therefore
panics instead of responding 401 (the wrapped handler is still never
invoked). -/
theorem authenticateEmptyHeaderPanics :
    authenticate "secret-token" "" = AuthOutcome.panicked
  ∧ AuthOutcome.panicked ≠ AuthOutcome.unauthorized
  ∧ AuthOutcome.panicked ≠ AuthOutcome.invoked := by
  decide

/-- C4: the backend payload's "model" field is the selected model, and the
selection takes a non-empty string "model" field from the request, falling
back to the configured default model when the field is absent, not a
string, or the empty string. -/
theorem modelSelectionSpec (defaultModel fullPrompt : String)
    (ollamaParams haRequest : List (String × JValue)) :
    jlookup "model"
        (buildOllamaRequest ollamaParams fullPrompt (selectModel defaultModel haRequest))
      = some (JValue.str (selectModel defaultModel haRequest))
  ∧ (∀ s, jlookup "model" haRequest = some (JValue.str s) → s ≠ "" →
      selectModel defaultModel haRequest = s)
  ∧ ((∀ s, jlookup "model" haRequest = some (JValue.str s) → s = "") →
      selectModel defaultModel haRequest = defaultModel) := by
  refine ⟨jlookup_mapInsert_self _ _ _, ?_, ?_⟩
  · intro s hs hne
    unfold selectModel
    rw [hs]
    simp [hne]
  · intro h
    unfold selectModel
    cases hv : jlookup "model" haRequest with
    | none => rfl
    | some v =>
        cases v with
        | str s => simp [h s hv]
        | num x => rfl
        | bool b => rfl
        | null => rfl
        | arr xs => rfl
        | obj fields => rfl

/-- C4: witness at a request overriding the model with "custom" and a
request with no "model" field. -/
theorem modelSelectionSpecWitness :
    jlookup "model"
        (buildOllamaRequest [] "p"
          (selectModel "default-model" [("model", JValue.str "custom")]))
      = some (JValue.str (selectModel "default-model" [("model", JValue.str "custom")]))
  ∧ selectModel "default-model" [("model", JValue.str "custom")] = "custom"
  ∧ selectModel "default-model" [] = "default-model" := by
  have h := modelSelectionSpec "default-model" "p" [] [("model", JValue.str "custom")]
  have h2 := modelSelectionSpec "default-model" "p" [] ([] : List (String × JValue))
  exact ⟨h.1, h.2.1 "custom" rfl (by decide),
    h2.2.2 (fun s hs => Option.noConfusion hs)⟩

/-- C5: the filtered response after the allowlist copy has exactly the key
"response" plus those allowlisted field names present in the parsed
backend mapping; every allowlisted field present in the backend mapping is
copied verbatim; allowlisted fields absent from the backend mapping are
silently omitted, and no other key ever appears. -/
theorem filteredResponseExact (response : String) (responseFields : List String)
    (m : List (String × JValue)) :
    (∀ k, (jlookup k (projectFields response responseFields m)).isSome = true ↔
        (k = "response" ∨ (k ∈ responseFields ∧ (jlookup k m).isSome = true)))
  ∧ (∀ k v, k ∈ responseFields → jlookup k m = some v →
      jlookup k (projectFields response responseFields m) = some v)
  ∧ (∀ k, k ≠ "response" → k ∉ responseFields →
      jlookup k (projectFields response responseFields m) = none) := by
  refine ⟨?_, ?_, ?_⟩
  · intro k
    rw [projectFields, jlookup_copyFields]
    by_cases hC : k ∈ responseFields ∧ (jlookup k m).isSome
    · simp [hC, hC.2]
    · by_cases hk : k = "response"
      · subst hk
        simp [hC, jlookup]
      · simp [hC, jlookup, Ne.symm hk, hk]
  · intro k v hk hv
    rw [projectFields, jlookup_copyFields]
    simp [hk, hv]
  · intro k hk hmem
    rw [projectFields, jlookup_copyFields]
    simp [hmem, jlookup, Ne.symm hk]

/-- C5: witness on a backend response with an allowlisted present field, an
allowlisted absent field, and a non-allowlisted field. -/
theorem filteredResponseExactWitness :
    jlookup "eval_count" (projectFields "hi" ["eval_count", "missing"]
        [("response", JValue.str "hi"), ("eval_count", JValue.num 5),
          ("secret", JValue.str "s")]) = some (JValue.num 5)
  ∧ jlookup "secret" (projectFields "hi" ["eval_count", "missing"]
        [("response", JValue.str "hi"), ("eval_count", JValue.num 5),
          ("secret", JValue.str "s")]) = none := by
  have h := filteredResponseExact "hi" ["eval_count", "missing"]
    [("response", JValue.str "hi"), ("eval_count", JValue.num 5),
      ("secret", JValue.str "s")]
  exact ⟨h.2.1 "eval_count" (JValue.num 5) (by decide) rfl,
    h.2.2 "secret" (by decide) (by decide)⟩

/-- C6: with the strip flag on, the output's "response" value is the typed
response string with every newline replaced by a single space; with the
flag off it is the typed response string unmodified; and the two outputs
agree at every key other than "response", so the transform touches no
other copied field. -/
theorem stripNewlineSpec (s : String) (responseFields : List String)
    (m : List (String × JValue)) (hm : typedResponse m = some s) :
    jlookup "response" (project true s responseFields m)
        = some (JValue.str (stripNewlines s))
  ∧ jlookup "response" (project false s responseFields m) = some (JValue.str s)
  ∧ ∀ k, k ≠ "response" →
      jlookup k (project true s responseFields m)
        = jlookup k (project false s responseFields m) := by
  refine ⟨?_, ?_, ?_⟩
  · show jlookup "response" (mapInsert "response" (JValue.str (stripNewlines s))
        (projectFields s responseFields m)) = some (JValue.str (stripNewlines s))
    exact jlookup_mapInsert_self _ _ _
  · show jlookup "response" (projectFields s responseFields m) = some (JValue.str s)
    rw [projectFields, jlookup_copyFields]
    cases hv : jlookup "response" m with
    | none => simp [hv, jlookup]
    | some v =>
        cases v with
        | str t =>
            have ht : t = s := by
              unfold typedResponse at hm
              rw [hv] at hm
              exact Option.some.inj hm
            subst ht
            by_cases hmem : "response" ∈ responseFields
            · simp [hv, hmem]
            · simp [hv, hmem, jlookup]
        | num x => exact absurd hm (by simp [typedResponse, hv])
        | bool b => exact absurd hm (by simp [typedResponse, hv])
        | null => exact absurd hm (by simp [typedResponse, hv])
        | arr xs => exact absurd hm (by simp [typedResponse, hv])
        | obj fields => exact absurd hm (by simp [typedResponse, hv])
  · intro k hk
    show jlookup k (mapInsert "response" (JValue.str (stripNewlines s))
        (projectFields s responseFields m)) = jlookup k (projectFields s responseFields m)
    exact jlookup_mapInsert_ne hk _ _

/-- C6: witness on the spec's own example, backend response
containing "hi\nthere". -/
theorem stripNewlineSpecWitness :
    jlookup "response" (project true "hi\nthere" ["eval_count"]
        [("response", JValue.str "hi\nthere"), ("done", JValue.bool true)])
      = some (JValue.str "hi there")
  ∧ jlookup "response" (project false "hi\nthere" ["eval_count"]
        [("response", JValue.str "hi\nthere"), ("done", JValue.bool true)])
      = some (JValue.str "hi\nthere") := by
  have h := stripNewlineSpec "hi\nthere" ["eval_count"]
    [("response", JValue.str "hi\nthere"), ("done", JValue.bool true)] rfl
  have hs : stripNewlines "hi\nthere" = "hi there" := rfl
  exact ⟨hs ▸ h.1, h.2.1⟩

/-- C7: a request body that fails JSON decoding, or whose "query" field is
missing or not a string, yields HTTP 400 and the handler never constructs
a backend payload (the outcome is badRequest, not backendCall). -/
theorem invalidRequestNoBackendCall (tmpl : Option (List TmplPart))
    (ollamaParams : List (String × JValue)) (defaultModel : String)
    (body : Option (List (String × JValue)))
    (h : body = none ∨ ∃ req, body = some req ∧
        ∀ s, jlookup "query" req ≠ some (JValue.str s)) :
    templateHandler tmpl ollamaParams defaultModel body = HandlerOutcome.badRequest := by
  rcases h with h | ⟨req, hb, hq⟩
  · rw [h]
    rfl
  · subst hb
    cases hv : jlookup "query" req with
    | none => simp [templateHandler, hv]
    | some v =>
        cases v with
        | str s => exact absurd hv (hq s)
        | num x => simp [templateHandler, hv]
        | bool b => simp [templateHandler, hv]
        | null => simp [templateHandler, hv]
        | arr xs => simp [templateHandler, hv]
        | obj fields => simp [templateHandler, hv]

/-- C7: witness on a request whose "query" field is a number. -/
theorem invalidRequestNoBackendCallWitness :
    templateHandler none [] "m" (some [("query", JValue.num 5)])
      = HandlerOutcome.badRequest :=
  invalidRequestNoBackendCall none [] "m" (some [("query", JValue.num 5)])
    (Or.inr ⟨[("query", JValue.num 5)], rfl, fun s hs => by simp [jlookup] at hs⟩)

/-- C9: the handler reads the decoded request body only at the keys
"query" and "model": two bodies agreeing on those two lookups produce the
same outcome, in particular an identical backend payload — no extra client
field is ever forwarded to the backend. -/
theorem extraFieldsNoInfluence (tmpl : Option (List TmplPart))
    (ollamaParams : List (String × JValue)) (defaultModel : String)
    (req1 req2 : List (String × JValue))
    (hq : jlookup "query" req1 = jlookup "query" req2)
    (hm : jlookup "model" req1 = jlookup "model" req2) :
    templateHandler tmpl ollamaParams defaultModel (some req1)
      = templateHandler tmpl ollamaParams defaultModel (some req2) := by
  have hsel : selectModel defaultModel req1 = selectModel defaultModel req2 := by
    unfold selectModel
    rw [hm]
  simp only [templateHandler]
  rw [hq, hsel]

/-- C9: witness on two bodies equal at "query" and "model" (both lacking
"model") and differing in their extra fields. -/
theorem extraFieldsNoInfluenceWitness :
    templateHandler none [] "m"
        (some [("query", JValue.str "q"), ("extra", JValue.bool true)])
      = templateHandler none [] "m"
        (some [("query", JValue.str "q"), ("other", JValue.num 3)]) :=
  extraFieldsNoInfluence none [] "m"
    [("query", JValue.str "q"), ("extra", JValue.bool true)]
    [("query", JValue.str "q"), ("other", JValue.num 3)] rfl rfl

/-- C8: when no directory entry produces a template (wrong extension, read
failure or parse failure — in particular an empty directory listing), the
registry after initialization is exactly the single entry "default"; and
for every directory listing whatsoever the registry after initialization
is non-empty. -/
theorem defaultTemplateBootstrap (files : List (String × Option (List TmplPart)))
    (h : ∀ f ∈ files, f.2 = none ∨ hasJsonExt f.1 = false) :
    loadAndCacheTemplates files = [("default", defaultTemplateParts)]
  ∧ ∀ gs : List (String × Option (List TmplPart)), loadAndCacheTemplates gs ≠ [] := by
  constructor
  · simp only [loadAndCacheTemplates]
    rw [foldl_templateStep_skip files [] h]
    rfl
  · intro gs
    simp only [loadAndCacheTemplates]
    generalize gs.foldl templateStep [] = t
    cases t with
    | nil => simp
    | cons a l => simp

/-- C8: witness on a listing with a non-template file and a template file
that fails to parse. -/
theorem defaultTemplateBootstrapWitness :
    loadAndCacheTemplates [("notes.txt", some [TmplPart.queryRef]), ("broken.json", none)]
      = [("default", defaultTemplateParts)] :=
  (defaultTemplateBootstrap
    [("notes.txt", some [TmplPart.queryRef]), ("broken.json", none)] (by decide)).1

/-- C10: when "response" is allowlisted and present in the open backend
mapping, the allowlist copy overwrites the typed seed at "response" with
the open-map value; the newline strip runs after the copy, so with the
strip flag on the final "response" is always the stripped typed-parse
string, whatever the allowlist contains. -/
theorem responseOverwriteThenStrip (s : String) (responseFields : List String)
    (m : List (String × JValue)) (v : JValue)
    (hmem : "response" ∈ responseFields) (hv : jlookup "response" m = some v) :
    jlookup "response" (projectFields s responseFields m) = some v
  ∧ jlookup "response" (project true s responseFields m)
      = some (JValue.str (stripNewlines s)) := by
  constructor
  · rw [projectFields, jlookup_copyFields]
    simp [hmem, hv]
  · show jlookup "response" (mapInsert "response" (JValue.str (stripNewlines s))
        (projectFields s responseFields m)) = some (JValue.str (stripNewlines s))
    exact jlookup_mapInsert_self _ _ _

/-- C10: witness with allowlist ["response"] and a backend response
containing a newline. -/
theorem responseOverwriteThenStripWitness :
    jlookup "response" (projectFields "a\nb" ["response"]
        [("response", JValue.str "a\nb")]) = some (JValue.str "a\nb")
  ∧ jlookup "response" (project true "a\nb" ["response"]
        [("response", JValue.str "a\nb")]) = some (JValue.str "a b") := by
  have h := responseOverwriteThenStrip "a\nb" ["response"]
    [("response", JValue.str "a\nb")] (JValue.str "a\nb") (by decide) rfl
  have hs : stripNewlines "a\nb" = "a b" := rfl
  exact ⟨h.1, hs ▸ h.2⟩

end Llamanator
